import Mathlib

/-!
Verification of the technical-indicator engine of the Stock_Market repository
(`src/backend/data_processing.py` and `src/backend/data_cleaning.py`).

Modelling conventions, shared by every definition below:

* A pandas `Series` of floats over one ticker group is a `List ℚ` when the
  source can never put a NaN or an infinity in it, and a `List PFloat`
  when NaN/inf can arise (RSI and the stochastic oscillator divide).
* `PFloat` mirrors the IEEE float values the source manipulates: `nan`,
  `inf`, `ninf` (negative infinity) and finite rationals.  The arithmetic
  on `PFloat` follows IEEE semantics on those values (signed zero is not
  modelled; no computation below distinguishes `+0` from `-0`).
* A rolling computation (`Series.rolling(window=w)` with the default
  `min_periods`) yields `none` for the first `w - 1` positions and a value
  computed from the full trailing window afterwards; we model its result
  as `List (Option ℚ)` with `none` standing for pandas' NaN.
* Dates: the source parses the 8-digit `DTYYYYMMDD` integer with
  `pd.to_datetime(format='%Y%m%d')`; on valid dates that conversion is
  strictly monotone, so rows carry the integer itself as their date key.
-/

namespace StockMarket

/-- An IEEE-style float value: not-a-number, the two infinities, or a finite
value (modelled as a rational, exact for the arithmetic the source does). -/
inductive PFloat where
  | nan : PFloat
  | inf : PFloat
  | ninf : PFloat
  | val : ℚ → PFloat
deriving DecidableEq, Repr

namespace PFloat

/-- IEEE negation on `PFloat`. -/
def neg : PFloat → PFloat
  | nan => nan
  | inf => ninf
  | ninf => inf
  | val q => val (-q)

/-- IEEE addition on `PFloat`: NaN is absorbing, opposite infinities give NaN. -/
def add : PFloat → PFloat → PFloat
  | nan, _ => nan
  | _, nan => nan
  | inf, ninf => nan
  | ninf, inf => nan
  | inf, _ => inf
  | _, inf => inf
  | ninf, _ => ninf
  | _, ninf => ninf
  | val a, val b => val (a + b)

/-- IEEE subtraction on `PFloat`. -/
def sub (a b : PFloat) : PFloat := add a (neg b)

/-- IEEE multiplication on `PFloat`: NaN absorbing, `inf * 0 = NaN`. -/
def mul : PFloat → PFloat → PFloat
  | nan, _ => nan
  | _, nan => nan
  | inf, inf => inf
  | inf, ninf => ninf
  | ninf, inf => ninf
  | ninf, ninf => inf
  | inf, val q => if q = 0 then nan else if 0 < q then inf else ninf
  | val q, inf => if q = 0 then nan else if 0 < q then inf else ninf
  | ninf, val q => if q = 0 then nan else if 0 < q then ninf else inf
  | val q, ninf => if q = 0 then nan else if 0 < q then ninf else inf
  | val a, val b => val (a * b)

/-- IEEE division on `PFloat`: NaN absorbing, `inf/inf = NaN`, finite/inf = 0,
finite/0 is `0/0 = NaN`, `a/0 = inf` for `a > 0` and `ninf` for `a < 0`. -/
def div : PFloat → PFloat → PFloat
  | nan, _ => nan
  | _, nan => nan
  | inf, inf => nan
  | inf, ninf => nan
  | ninf, inf => nan
  | ninf, ninf => nan
  | inf, val q => if 0 ≤ q then inf else ninf
  | ninf, val q => if 0 ≤ q then ninf else inf
  | val _, inf => val 0
  | val _, ninf => val 0
  | val a, val b =>
    if b = 0 then (if a = 0 then nan else if 0 < a then inf else ninf)
    else val (a / b)

end PFloat

/-- A pandas cell that is either NaN (`none`) or a finite value, viewed as a
`PFloat`: this is how a rolling result enters a float arithmetic expression. -/
def toPF : Option ℚ → PFloat
  | none => PFloat.nan
  | some q => PFloat.val q

/-- `Series.rolling(window=w)` followed by an aggregation `f` over each full
trailing window, with pandas' default `min_periods` (= `w`): position `i`
holds `none` while fewer than `w` observations are available, and
`f` of the window `xs[i+1-w . . i]` afterwards.  The input series has no NaN
(the source applies it to NaN-free columns). -/
def rollingApply (f : List ℚ → ℚ) (w : Nat) (xs : List ℚ) : List (Option ℚ) :=
  (List.range xs.length).map fun i =>
    if w ≤ i + 1 then some (f ((xs.drop (i + 1 - w)).take w)) else none

/-- The arithmetic mean of a list of rationals. -/
def listMean (l : List ℚ) : ℚ := l.sum / (l.length : ℚ)

/-- `Series.rolling(window=w).mean()` on a NaN-free series. -/
def rollingMean (w : Nat) (xs : List ℚ) : List (Option ℚ) :=
  rollingApply listMean w xs

/-- The minimum of a nonempty list given as head and tail. -/
def listMin (x : ℚ) (l : List ℚ) : ℚ := l.foldl min x

/-- The maximum of a nonempty list given as head and tail. -/
def listMax (x : ℚ) (l : List ℚ) : ℚ := l.foldl max x

/-- `Series.rolling(window=w).min()` on a NaN-free series. -/
def rollingMin (w : Nat) (xs : List ℚ) : List (Option ℚ) :=
  rollingApply (fun l => match l with | [] => 0 | x :: t => listMin x t) w xs

/-- `Series.rolling(window=w).max()` on a NaN-free series. -/
def rollingMax (w : Nat) (xs : List ℚ) : List (Option ℚ) :=
  rollingApply (fun l => match l with | [] => 0 | x :: t => listMax x t) w xs

/-- The sample variance (pandas' default `ddof=1`) of a window: the sum of
squared deviations from the mean, divided by `count - 1`. -/
def sampleVar (l : List ℚ) : ℚ :=
  (l.map fun x => (x - listMean l) ^ 2).sum / ((l.length : ℚ) - 1)

/-- `Series.ewm(span, adjust=False).mean()` after its first observation:
`ewmGo a p xs` is the smoothed series whose value at the current row is `p`
and which continues over `xs` by `y = a * x + (1 - a) * p`. -/
def ewmGo (a : ℚ) (p : ℚ) : List ℚ → List ℚ
  | [] => [p]
  | x :: t => p :: ewmGo a (a * x + (1 - a) * p) t

/-- `Series.ewm(span=s, adjust=False).mean()` with `a = 2 / (s + 1)` on a
NaN-free series: seeded with the first observation, then the recursive
exponential smoothing `y[i] = a * x[i] + (1 - a) * y[i-1]`. -/
def ewmMean (a : ℚ) : List ℚ → List ℚ
  | [] => []
  | x :: t => ewmGo a x t

/-- `Series.diff()`: NaN (here `none`) at the first position, the difference
to the previous observation afterwards. -/
def diff : List ℚ → List (Option ℚ)
  | [] => []
  | x :: t => none :: List.zipWith (fun a b => some (a - b)) t (x :: t)

/-- One cell of `delta.where(delta > 0, 0)`: keep a positive delta, replace
everything else — including the leading NaN, for which the condition is
False — by `0`. -/
def whereGain : Option ℚ → ℚ
  | some q => if 0 < q then q else 0
  | none => 0

/-- One cell of `-delta.where(delta < 0, 0)`: the negation of a negative
delta, `0` elsewhere (again including the leading NaN). -/
def whereLoss : Option ℚ → ℚ
  | some q => if q < 0 then -q else 0
  | none => 0

namespace data_processing

/-- One cell of `rs = gain / loss; rsi = 100 - (100 / (1 + rs))` in float
arithmetic, from the two rolling-mean cells at one row. -/
def rsiCell (g l : Option ℚ) : PFloat :=
  PFloat.sub (.val 100)
    (PFloat.div (.val 100) (PFloat.add (.val 1) (PFloat.div (toPF g) (toPF l))))

/-- `calculate_rsi` of `src/backend/data_processing.py`:
`delta = series.diff()`;
`gain = (delta.where(delta > 0, 0)).rolling(window).mean()`;
`loss = (-delta.where(delta < 0, 0)).rolling(window).mean()`;
`rs = gain / loss`; `rsi = 100 - (100 / (1 + rs))`, all in float
arithmetic, modelled cell-wise over `PFloat`. -/
def calculate_rsi (series : List ℚ) (window : Nat) : List PFloat :=
  let gain := rollingMean window ((diff series).map whereGain)
  let loss := rollingMean window ((diff series).map whereLoss)
  List.zipWith rsiCell gain loss

/-- `calculate_macd` of `src/backend/data_processing.py`:
the difference of the span-`span_short` and span-`span_long` EMAs
(`adjust=False`, so `alpha = 2 / (span + 1)`), and the span-`signal` EMA of
that difference. -/
def calculate_macd (series : List ℚ) (span_short span_long signal : Nat) :
    List ℚ × List ℚ :=
  let ema_short := ewmMean (2 / ((span_short : ℚ) + 1)) series
  let ema_long := ewmMean (2 / ((span_long : ℚ) + 1)) series
  let macd := List.zipWith (· - ·) ema_short ema_long
  let signal_line := ewmMean (2 / ((signal : ℚ) + 1)) macd
  (macd, signal_line)

/-- The float sum of a window of `PFloat` cells (NaN absorbing). -/
def pfSum (l : List PFloat) : PFloat := l.foldr PFloat.add (.val 0)

/-- `Series.rolling(window=w).mean()` on a series that may hold NaN cells
(the `%K` series): a window with fewer than `w` observations, or holding a
NaN, yields NaN. -/
def rollingMeanPF (w : Nat) (xs : List PFloat) : List PFloat :=
  (List.range xs.length).map fun i =>
    if w ≤ i + 1 then PFloat.div (pfSum ((xs.drop (i + 1 - w)).take w)) (.val (w : ℚ))
    else .nan

/-- One cell of `k_percent = 100 * (Close - low_min) / (high_max - low_min)`
in float arithmetic: the close together with the (rolling-max, rolling-min)
pair at one row. -/
def kCell (c : ℚ) (hl : Option ℚ × Option ℚ) : PFloat :=
  PFloat.div (PFloat.mul (.val 100) (PFloat.sub (.val c) (toPF hl.2)))
    (PFloat.sub (toPF hl.1) (toPF hl.2))

/-- `calculate_stochastic_oscillator` of `src/backend/data_processing.py`:
`low_min = Low.rolling(k_period).min()`; `high_max = High.rolling(k_period).max()`;
`k_percent = 100 * (Close - low_min) / (high_max - low_min)` in float
arithmetic; `d_percent = k_percent.rolling(d_period).mean()`.  The group's
High, Low and Close columns are passed as three lists. -/
def calculate_stochastic_oscillator (high low close : List ℚ)
    (k_period d_period : Nat) : List PFloat × List PFloat :=
  let low_min := rollingMin k_period low
  let high_max := rollingMax k_period high
  let k_percent := List.zipWith kCell close (List.zip high_max low_min)
  let d_percent := rollingMeanPF d_period k_percent
  (k_percent, d_percent)

end data_processing

/- ### The panel and `preprocess_data` -/

/-- One row of the combined panel handed to `preprocess_data`, after the
`DTYYYYMMDD` column has been parsed: the date key is the 8-digit integer
itself (`pd.to_datetime(format='%Y%m%d')` is strictly monotone on valid
dates, so sorting by it is sorting by the parsed date). -/
structure PRow where
  Ticker : String
  Date : Nat
  Open : ℚ
  High : ℚ
  Low : ℚ
  Close : ℚ
  Volume : ℚ
deriving DecidableEq, Repr

/-- Lexicographic strict order on character lists by code point — how
Python (and hence pandas `sort_values`) compares the ticker strings. -/
def charListLt : List Char → List Char → Bool
  | [], [] => false
  | [], _ :: _ => true
  | _ :: _, [] => false
  | a :: s, b :: t => a.val < b.val || (a.val = b.val && charListLt s t)

/-- Strict lexicographic order on ticker strings. -/
def tickerLt (s t : String) : Bool := charListLt s.data t.data

/-- The `sort_values(by=['Ticker', 'Date'])` order: by ticker, ties by date. -/
def rowLE (r s : PRow) : Prop :=
  tickerLt r.Ticker s.Ticker = true ∨ (r.Ticker = s.Ticker ∧ r.Date ≤ s.Date)

instance rowLE.instDecidable : DecidableRel rowLE := fun r s =>
  inferInstanceAs
    (Decidable (tickerLt r.Ticker s.Ticker = true ∨ (r.Ticker = s.Ticker ∧ r.Date ≤ s.Date)))

/-- `df.sort_values(by=['Ticker', 'Date'])`. -/
def sortPanel (df : List PRow) : List PRow := List.insertionSort rowLE df

/-- Keep the first occurrence of every element, in order, dropping later
duplicates (the keep-first policy of `DataFrame.drop_duplicates`, also how
`groupby` lists each key once). -/
def dropDupAux {α : Type} [DecidableEq α] (seen : List α) : List α → List α
  | [] => []
  | a :: l => if a ∈ seen then dropDupAux seen l else a :: dropDupAux (a :: seen) l

/-- `drop_duplicates` with the default keep-first policy. -/
def drop_duplicates {α : Type} [DecidableEq α] (l : List α) : List α := dropDupAux [] l

/-- The distinct tickers of the panel in first-occurrence order: on a panel
sorted by ticker this is the ascending key order in which `groupby('Ticker')`
visits the groups. -/
def tickersOf (df : List PRow) : List String := drop_duplicates (df.map PRow.Ticker)

/-- The rows of one ticker's group, in panel order (`groupby('Ticker')` on
the sorted panel: each group is its ticker's rows in date order). -/
def groupRows (df : List PRow) (t : String) : List PRow :=
  df.filter fun r => r.Ticker == t

/-- `df.groupby('Ticker')[col].transform(f)` on a panel already sorted by
(Ticker, Date): the per-group results concatenated in group order, which on
the sorted panel is exactly row order (transform aligns by index). -/
def transformCol {α : Type} (df : List PRow) (col : PRow → ℚ) (f : List ℚ → List α) :
    List α :=
  (tickersOf df).flatMap fun t => f ((groupRows df t).map col)

/-- `Series.pct_change()` per group: NaN at the first row, then
`(close[i] - close[i-1]) / close[i-1]` in float arithmetic. -/
def pct_change : List ℚ → List PFloat
  | [] => []
  | x :: t =>
    .nan :: List.zipWith (fun a b => PFloat.div (.val (a - b)) (.val b)) t (x :: t)

/-- `Series.rolling(window=w).std()` (pandas default `ddof=1`): the square
root of the sample variance of each full trailing window. -/
noncomputable def rollingStd (w : Nat) (xs : List ℚ) : List (Option ℝ) :=
  (rollingApply sampleVar w xs).map (Option.map fun v : ℚ => Real.sqrt (v : ℝ))

/-- `df['BB_Upper'] = df['BB_Middle'] + 2 * rollingStd10`: cell-wise, NaN
(`none`) whenever either operand is NaN — both become defined at the same
row because they share the window. -/
noncomputable def bbUpperCol (mid : List (Option ℚ)) (dev : List (Option ℝ)) :
    List (Option ℝ) :=
  List.zipWith
    (fun m s => match m, s with
      | some m, some s => some ((m : ℝ) + 2 * s)
      | _, _ => none)
    mid dev

/-- `df['BB_Lower'] = df['BB_Middle'] - 2 * rollingStd10`, cell-wise. -/
noncomputable def bbLowerCol (mid : List (Option ℚ)) (dev : List (Option ℝ)) :
    List (Option ℝ) :=
  List.zipWith
    (fun m s => match m, s with
      | some m, some s => some ((m : ℝ) - 2 * s)
      | _, _ => none)
    mid dev

/-- The output table of `preprocess_data`, column-oriented: the sorted rows
plus the engineered columns in their order of assignment.  The `MACD`,
`Signal_Line`, `pctK` (`%K`) and `pctD` (`%D`) columns come from the
`zip(*groupby.apply(...))` pattern, whose unpacked tuples hold one whole
per-group Series per cell — so those cells are entire series objects. -/
structure PanelOut where
  rows : List PRow
  SMA_10 : List (Option ℚ)
  EMA_10 : List ℚ
  BB_Middle : List (Option ℚ)
  BB_Upper : List (Option ℝ)
  BB_Lower : List (Option ℝ)
  Daily_Return : List PFloat
  RSI_14 : List PFloat
  MACD : List (List ℚ)
  Signal_Line : List (List ℚ)
  pctK : List (List PFloat)
  pctD : List (List PFloat)

/-- The per-group MACD/Signal pairs, one per distinct ticker, in group
order: the Series that `df.groupby('Ticker')['Close'].apply(calculate_macd)`
yields, whose length is the number of groups, not the number of rows. -/
def macdPairs (sorted : List PRow) : List (List ℚ × List ℚ) :=
  (tickersOf sorted).map fun t =>
    data_processing.calculate_macd ((groupRows sorted t).map PRow.Close) 12 26 9

/-- The per-group `%K`/`%D` pairs, one per distinct ticker, from
`df.groupby('Ticker').apply(calculate_stochastic_oscillator)`. -/
def stochPairs (sorted : List PRow) : List (List PFloat × List PFloat) :=
  (tickersOf sorted).map fun t =>
    data_processing.calculate_stochastic_oscillator
      ((groupRows sorted t).map PRow.High) ((groupRows sorted t).map PRow.Low)
      ((groupRows sorted t).map PRow.Close) 14 3

/-- `preprocess_data` of `src/backend/data_processing.py`: parse the date
key, sort by (Ticker, Date), add SMA/EMA/Bollinger/Daily-Return/RSI columns
by `groupby(...).transform`, then assign the MACD/Signal and `%K`/`%D`
columns through `df['A'], df['B'] = zip(*groupby.apply(...))`.  Each of
those four assignments hands pandas a tuple with one entry per ticker
group; pandas accepts a list-like column only when its length equals the
row count, and raises `ValueError` otherwise — modelled by the two length
guards, `none` standing for the raised exception. -/
noncomputable def preprocess_data (df : List PRow) : Option PanelOut :=
  let sorted := sortPanel df
  let sma := transformCol sorted PRow.Close (rollingMean 10)
  let ema := transformCol sorted PRow.Close (ewmMean (2 / 11))
  let bb_middle := sma
  let bb_upper := bbUpperCol bb_middle (transformCol sorted PRow.Close (rollingStd 10))
  let bb_lower := bbLowerCol bb_middle (transformCol sorted PRow.Close (rollingStd 10))
  let daily_return := transformCol sorted PRow.Close pct_change
  let rsi := transformCol sorted PRow.Close (fun x => data_processing.calculate_rsi x 14)
  if ((macdPairs sorted).map Prod.fst).length = sorted.length then
    if ((stochPairs sorted).map Prod.fst).length = sorted.length then
      some
        { rows := sorted
          SMA_10 := sma
          EMA_10 := ema
          BB_Middle := bb_middle
          BB_Upper := bb_upper
          BB_Lower := bb_lower
          Daily_Return := daily_return
          RSI_14 := rsi
          MACD := (macdPairs sorted).map Prod.fst
          Signal_Line := (macdPairs sorted).map Prod.snd
          pctK := (stochPairs sorted).map Prod.fst
          pctD := (stochPairs sorted).map Prod.snd }
    else none
  else none

/- ### Raw CSV data, `load_data` (both modules) and `clean_data` -/

/-- One raw CSV row before cleaning: every cell may be null.  `extra` holds
the cells of any non-critical columns the file carries. -/
structure CRow where
  Ticker : Option String
  DTYYYYMMDD : Option Nat
  Open : Option ℚ
  High : Option ℚ
  Low : Option ℚ
  Close : Option ℚ
  Volume : Option ℚ
  extra : List (Option ℚ)
deriving DecidableEq, Repr

/-- One CSV file of the data directory: its header and its data rows. -/
structure CSVFile where
  cols : List String
  rows : List CRow
deriving DecidableEq, Repr

/-- The required/critical column set, identical in both modules. -/
def required_columns : List String :=
  ["Ticker", "DTYYYYMMDD", "Open", "High", "Low", "Close", "Volume"]

/-- `clean_column_names` of `src/backend/data_cleaning.py`:
`df.columns.str.replace('<', '').str.replace('>', '')` — replacing every
occurrence of a one-character pattern by the empty string removes exactly
those characters, modelled by filtering them out of the name. -/
def clean_column_names (cols : List String) : List String :=
  cols.map fun s => String.mk (s.data.filter fun ch => !(ch == '<' || ch == '>'))

namespace data_processing

/-- The per-file acceptance test of `load_data` in
`src/backend/data_processing.py`: all required columns present and the
frame nonempty; a file failing it is skipped with a warning, not fatal. -/
def validFile (f : CSVFile) : Bool :=
  required_columns.all (fun c => f.cols.contains c) && !f.rows.isEmpty

/-- `load_data` of `src/backend/data_processing.py`: keep the files that
pass `validFile`, raise `ValueError` (modelled as `.error`) only when none
remains, and otherwise concatenate the surviving files' rows. -/
def load_data (files : List CSVFile) : Except String (List CRow) :=
  let data_frames := files.filter validFile
  if data_frames.isEmpty then .error "No valid CSV files found in the directory."
  else .ok (data_frames.flatMap CSVFile.rows)

end data_processing

namespace data_cleaning

/-- The loop of `load_data` in `src/backend/data_cleaning.py`: clean each
file's column names, raise `ValueError` at the first file with a missing
critical column, otherwise accumulate its rows (the final `pd.concat`). -/
def loadLoop : List CSVFile → List CRow → Except String (List CRow)
  | [], acc => .ok acc
  | f :: rest, acc =>
    let cols := clean_column_names f.cols
    let missing_columns := required_columns.filter fun c => !cols.contains c
    if missing_columns.isEmpty then loadLoop rest (acc ++ f.rows)
    else .error "Missing columns in file."

/-- `load_data` of `src/backend/data_cleaning.py`: raise when the directory
has no CSV files, then run the per-file loop. -/
def load_data (files : List CSVFile) : Except String (List CRow) :=
  if files.isEmpty then .error "No CSV files found in the directory."
  else loadLoop files []

/-- Whether a row has a null in any critical column — the rows that
`df.dropna(subset=critical_columns)` removes. -/
def hasNullCritical (r : CRow) : Bool :=
  r.Ticker.isNone || r.DTYYYYMMDD.isNone || r.Open.isNone || r.High.isNone ||
    r.Low.isNone || r.Close.isNone || r.Volume.isNone

/-- `df.dropna(subset=critical_columns)`. -/
def dropnaCritical (df : List CRow) : List CRow :=
  df.filter fun r => !hasNullCritical r

/-- The column mean pandas uses for `fillna`: the mean of the non-null cells. -/
def colMean (get : CRow → Option ℚ) (df : List CRow) : ℚ :=
  listMean (df.filterMap get)

/-- One iteration of the mean-fill loop of `clean_data`: if the column has
any null cell, replace every null cell by the column mean; otherwise leave
the frame untouched (the `if missing_values > 0` guard). -/
def fillColumn (get : CRow → Option ℚ) (set : CRow → ℚ → CRow) (df : List CRow) :
    List CRow :=
  let missing_values := (df.filter fun r => (get r).isNone).length
  if 0 < missing_values then
    let mean_value := colMean get df
    df.map fun r => if (get r).isNone then set r mean_value else r
  else df

/-- The mean-fill loop over `numerical_cols = [Open, High, Low, Close,
Volume]`, in the source's column order. -/
def fillNumerical (df : List CRow) : List CRow :=
  let d1 := fillColumn CRow.Open (fun r v => { r with Open := some v }) df
  let d2 := fillColumn CRow.High (fun r v => { r with High := some v }) d1
  let d3 := fillColumn CRow.Low (fun r v => { r with Low := some v }) d2
  let d4 := fillColumn CRow.Close (fun r v => { r with Close := some v }) d3
  fillColumn CRow.Volume (fun r v => { r with Volume := some v }) d4

/-- `clean_data` of `src/backend/data_cleaning.py`: drop the rows with a
null critical cell, mean-fill the numerical columns, drop duplicate rows
(keep-first). -/
def clean_data (df : List CRow) : List CRow :=
  drop_duplicates (fillNumerical (dropnaCritical df))

end data_cleaning

/- ### Basic lemmas about the rolling and smoothing engines -/

theorem rollingApply_length (f : List ℚ → ℚ) (w : Nat) (xs : List ℚ) :
    (rollingApply f w xs).length = xs.length := by
  simp [rollingApply]

theorem rollingApply_getElem? (f : List ℚ → ℚ) (w : Nat) (xs : List ℚ)
    (i : Nat) (hi : i < xs.length) :
    (rollingApply f w xs)[i]? =
      some (if w ≤ i + 1 then some (f ((xs.drop (i + 1 - w)).take w)) else none) := by
  simp [rollingApply, List.getElem?_map, List.getElem?_range hi]

theorem ewmGo_length (a p : ℚ) (xs : List ℚ) :
    (ewmGo a p xs).length = xs.length + 1 := by
  induction xs generalizing p with
  | nil => simp [ewmGo]
  | cons x t ih => simp [ewmGo, ih]

theorem ewmMean_length (a : ℚ) (xs : List ℚ) :
    (ewmMean a xs).length = xs.length := by
  cases xs with
  | nil => simp [ewmMean]
  | cons x t => simp [ewmMean, ewmGo_length]

theorem ewmGo_getElem?_zero (a p : ℚ) (xs : List ℚ) :
    (ewmGo a p xs)[0]? = some p := by
  cases xs <;> simp [ewmGo]

theorem ewmGo_getElem?_succ (a : ℚ) (xs : List ℚ) (p : ℚ) (i : Nat)
    (hi : i < xs.length) :
    (ewmGo a p xs)[i + 1]? =
      some (a * xs.getD i 0 + (1 - a) * (ewmGo a p xs).getD i 0) := by
  induction xs generalizing p i with
  | nil => simp at hi
  | cons x t ih =>
    cases i with
    | zero =>
      simp [ewmGo, List.getD, ewmGo_getElem?_zero]
    | succ j =>
      have hj : j < t.length := by simpa using hi
      simp only [ewmGo, List.getElem?_cons_succ, List.getD, List.getElem?_cons_succ]
      simpa [List.getD] using ih (a * x + (1 - a) * p) j hj

theorem ewmMean_getElem?_zero (a : ℚ) (xs : List ℚ) :
    (ewmMean a xs)[0]? = xs[0]? := by
  cases xs with
  | nil => simp [ewmMean]
  | cons x t => simp [ewmMean, ewmGo_getElem?_zero]

theorem ewmMean_getElem?_succ (a : ℚ) (xs : List ℚ) (i : Nat)
    (hi : i + 1 < xs.length) :
    (ewmMean a xs)[i + 1]? =
      some (a * xs.getD (i + 1) 0 + (1 - a) * (ewmMean a xs).getD i 0) := by
  cases xs with
  | nil => simp at hi
  | cons x t =>
    have ht : i < t.length := by simpa using hi
    have h := ewmGo_getElem?_succ a t x i ht
    simpa [ewmMean, List.getD] using h

/- ### C3 — the SMA_10 contract -/

/-- C3: within every ticker group, the `SMA_10` transform
(`x.rolling(window=10).mean()` over the group's Close series) is undefined
at rows 0 through 8 and, for `i ≥ 9`, equals the arithmetic mean of the
group's Close values at indices `i-9` through `i`. -/
theorem C3_sma10_prefix_and_mean (xs : List ℚ) (i : Nat) (hi : i < xs.length) :
    (i < 9 → (rollingMean 10 xs)[i]? = some none) ∧
    (9 ≤ i → (rollingMean 10 xs)[i]? =
      some (some (listMean ((xs.drop (i - 9)).take 10)))) := by
  have h := rollingApply_getElem? listMean 10 xs i hi
  constructor
  · intro h9
    rw [rollingMean, h, if_neg (by omega)]
  · intro h9
    have he : i + 1 - 10 = i - 9 := by omega
    rw [rollingMean, h, if_pos (by omega), he]

/-- Witness for C3, at the spec's concrete scenario: closes
`[10,11,9,12,13,11,14,15,13,16,17,15]`, index 9, SMA_10 = 12.4 = 62/5. -/
theorem C3_sma10_prefix_and_mean_witness :
    9 < ([10, 11, 9, 12, 13, 11, 14, 15, 13, 16, 17, 15] : List ℚ).length ∧
    (rollingMean 10 [10, 11, 9, 12, 13, 11, 14, 15, 13, 16, 17, 15])[9]? =
      some (some (62 / 5)) := by
  have h :=
    (C3_sma10_prefix_and_mean
      ([10, 11, 9, 12, 13, 11, 14, 15, 13, 16, 17, 15] : List ℚ) 9 (by norm_num)).2
      (by norm_num)
  refine ⟨by norm_num, ?_⟩
  rw [h]
  norm_num [listMean]

/- ### C4 — the EMA_10 contract -/

/-- C4: within every ticker group, the `EMA_10` transform
(`x.ewm(span=10, adjust=False).mean()`, so `alpha = 2/11`) equals Close at
the group's first row, obeys
`EMA_10[i] = alpha*Close[i] + (1-alpha)*EMA_10[i-1]` for `i ≥ 1`, and is
defined at every row of every group — its length equals the group's length
and every cell is a finite value, with no undefined prefix even for a
single-row group. -/
theorem C4_ema10_seed_and_recursion (xs : List ℚ) (i : Nat) :
    (ewmMean (2 / 11) xs).length = xs.length ∧
    (ewmMean (2 / 11) xs)[0]? = xs[0]? ∧
    (i + 1 < xs.length →
      (ewmMean (2 / 11) xs)[i + 1]? =
        some ((2 / 11) * xs.getD (i + 1) 0 +
          (1 - 2 / 11) * (ewmMean (2 / 11) xs).getD i 0)) :=
  ⟨ewmMean_length _ _, ewmMean_getElem?_zero _ _, fun h => ewmMean_getElem?_succ _ _ _ h⟩

/-- Witness for C4 at the two-row close series `[1, 2]`:
`EMA_10[0] = 1` and `EMA_10[1] = (2/11)*2 + (9/11)*1 = 13/11`. -/
theorem C4_ema10_seed_and_recursion_witness :
    0 + 1 < ([1, 2] : List ℚ).length ∧
    (ewmMean (2 / 11) [1, 2])[0]? = some 1 ∧
    (ewmMean (2 / 11) [1, 2])[1]? = some (13 / 11) := by
  have h := C4_ema10_seed_and_recursion ([1, 2] : List ℚ) 0
  refine ⟨by norm_num, ?_, ?_⟩
  · rw [h.2.1]; rfl
  · rw [h.2.2 (by norm_num)]
    norm_num [ewmMean, ewmGo, List.getD]

/- ### C5 — the MACD / Signal-Line contract -/

theorem getElem?_eq_some_getD {α : Type} [Inhabited α] (l : List α) (i : Nat)
    (h : i < l.length) : l[i]? = some (l.getD i default) := by
  simp [List.getD_eq_getElem?_getD, List.getElem?_eq_getElem h]

/-- C5: for every close series of a ticker group, `calculate_macd` yields
`MACD[i] = EMA(Close, span=12)[i] - EMA(Close, span=26)[i]` exactly
(`alpha = 2/13` and `2/27`), the Signal Line is the span-9 EMA
(`alpha = 2/10`) of the MACD series — seeded at `MACD[0]`, then
`Signal[i] = (2/10)*MACD[i] + (8/10)*Signal[i-1]` — and both series are
defined from the group's first row onward: their lengths equal the group's
length and every cell is a finite value (no undefined prefix). -/
theorem C5_macd_signal (xs : List ℚ) (i : Nat) :
    (data_processing.calculate_macd xs 12 26 9).1.length = xs.length ∧
    (data_processing.calculate_macd xs 12 26 9).2.length = xs.length ∧
    (i < xs.length →
      (data_processing.calculate_macd xs 12 26 9).1[i]? =
        some ((ewmMean (2 / 13) xs).getD i 0 - (ewmMean (2 / 27) xs).getD i 0)) ∧
    (data_processing.calculate_macd xs 12 26 9).2[0]? =
      (data_processing.calculate_macd xs 12 26 9).1[0]? ∧
    (i + 1 < xs.length →
      (data_processing.calculate_macd xs 12 26 9).2[i + 1]? =
        some ((2 / 10) * (data_processing.calculate_macd xs 12 26 9).1.getD (i + 1) 0 +
          (1 - 2 / 10) * (data_processing.calculate_macd xs 12 26 9).2.getD i 0)) := by
  have hdef : data_processing.calculate_macd xs 12 26 9 =
      (List.zipWith (· - ·) (ewmMean (2 / 13) xs) (ewmMean (2 / 27) xs),
        ewmMean (2 / 10)
          (List.zipWith (· - ·) (ewmMean (2 / 13) xs) (ewmMean (2 / 27) xs))) := by
    simp only [data_processing.calculate_macd]
    norm_num
  have hd1 : (data_processing.calculate_macd xs 12 26 9).1 =
      List.zipWith (· - ·) (ewmMean (2 / 13) xs) (ewmMean (2 / 27) xs) := by rw [hdef]
  have hd2 : (data_processing.calculate_macd xs 12 26 9).2 =
      ewmMean (2 / 10) (List.zipWith (· - ·) (ewmMean (2 / 13) xs) (ewmMean (2 / 27) xs)) := by
    rw [hdef]
  have hmac : (List.zipWith (· - ·) (ewmMean (2 / 13) xs) (ewmMean (2 / 27) xs)).length =
      xs.length := by
    rw [List.length_zipWith, ewmMean_length, ewmMean_length, min_self]
  refine ⟨by rw [hd1]; exact hmac, by rw [hd2, ewmMean_length]; exact hmac, ?_, ?_, ?_⟩
  · intro hi
    rw [hd1, List.getElem?_zipWith,
      getElem?_eq_some_getD _ _ (by rw [ewmMean_length]; exact hi),
      getElem?_eq_some_getD _ _ (by rw [ewmMean_length]; exact hi)]
    rfl
  · rw [hd2, hd1, ewmMean_getElem?_zero]
  · intro hi
    rw [hd2, hd1]
    exact ewmMean_getElem?_succ _ _ _ (by rw [hmac]; exact hi)

/-- Witness for C5 at the close series `[1, 2]`, index 0:
`MACD[0] = EMA12[0] - EMA26[0] = 1 - 1 = 0` and `Signal[0] = MACD[0]`. -/
theorem C5_macd_signal_witness :
    0 < ([1, 2] : List ℚ).length ∧
    (data_processing.calculate_macd [1, 2] 12 26 9).1[0]? = some 0 ∧
    (data_processing.calculate_macd [1, 2] 12 26 9).2[0]? =
      (data_processing.calculate_macd [1, 2] 12 26 9).1[0]? := by
  have h := C5_macd_signal ([1, 2] : List ℚ) 0
  refine ⟨by norm_num, ?_, h.2.2.2.1⟩
  rw [h.2.2.1 (by norm_num)]
  norm_num [ewmMean, ewmGo, List.getD]

/- ### C6 — the RSI contract -/

theorem diff_length (xs : List ℚ) : (diff xs).length = xs.length := by
  cases xs with
  | nil => rfl
  | cons x t => simp [diff]

theorem rollingMean_length (w : Nat) (xs : List ℚ) :
    (rollingMean w xs).length = xs.length := rollingApply_length _ _ _

theorem rollingMean_getElem?_defined (w : Nat) (xs : List ℚ) (i : Nat)
    (hi : i < xs.length) (hw : w ≤ i + 1) :
    (rollingMean w xs)[i]? = some (some (listMean ((xs.drop (i + 1 - w)).take w))) := by
  rw [rollingMean, rollingApply_getElem? _ _ _ _ hi, if_pos hw]

theorem rollingMean_getElem?_undef (w : Nat) (xs : List ℚ) (i : Nat)
    (hi : i < xs.length) (hw : i + 1 < w) :
    (rollingMean w xs)[i]? = some none := by
  rw [rollingMean, rollingApply_getElem? _ _ _ _ hi, if_neg (by omega)]

theorem listMean_nonneg (l : List ℚ) (h : ∀ x ∈ l, 0 ≤ x) : 0 ≤ listMean l :=
  div_nonneg (List.sum_nonneg h) (by positivity)

theorem whereGain_nonneg (d : Option ℚ) : 0 ≤ whereGain d := by
  cases d with
  | none => simp [whereGain]
  | some q =>
    simp only [whereGain]
    split
    · linarith
    · exact le_rfl

theorem whereLoss_nonneg (d : Option ℚ) : 0 ≤ whereLoss d := by
  cases d with
  | none => simp [whereLoss]
  | some q =>
    simp only [whereLoss]
    split
    · linarith
    · exact le_rfl

theorem gainWindow_nonneg (xs : List ℚ) (a b : Nat) :
    0 ≤ listMean ((((diff xs).map whereGain).drop a).take b) := by
  apply listMean_nonneg
  intro x hx
  have hx2 : x ∈ (diff xs).map whereGain :=
    List.drop_subset _ _ (List.take_subset _ _ hx)
  obtain ⟨d, _, rfl⟩ := List.mem_map.mp hx2
  exact whereGain_nonneg d

theorem lossWindow_nonneg (xs : List ℚ) (a b : Nat) :
    0 ≤ listMean ((((diff xs).map whereLoss).drop a).take b) := by
  apply listMean_nonneg
  intro x hx
  have hx2 : x ∈ (diff xs).map whereLoss :=
    List.drop_subset _ _ (List.take_subset _ _ hx)
  obtain ⟨d, _, rfl⟩ := List.mem_map.mp hx2
  exact whereLoss_nonneg d

theorem rsiCell_none_left (l : Option ℚ) :
    data_processing.rsiCell none l = .nan := by
  cases l <;> rfl

theorem rsiCell_val (g l : ℚ) (hg : 0 ≤ g) (hl : 0 < l) :
    data_processing.rsiCell (some g) (some l) = .val (100 - 100 / (1 + g / l)) := by
  have hl0 : l ≠ 0 := ne_of_gt hl
  have hgl : (0 : ℚ) ≤ g / l := div_nonneg hg (le_of_lt hl)
  have h1 : (1 : ℚ) + g / l ≠ 0 := by positivity
  simp only [data_processing.rsiCell, toPF, PFloat.div, PFloat.add, PFloat.sub,
    PFloat.neg, if_neg hl0, if_neg h1]
  norm_num [sub_eq_add_neg]

theorem rsiCell_zero_loss (g : ℚ) (hg : 0 < g) :
    data_processing.rsiCell (some g) (some 0) = .val 100 := by
  have hg0 : g ≠ 0 := ne_of_gt hg
  simp only [data_processing.rsiCell, toPF, PFloat.div, PFloat.add, PFloat.sub,
    PFloat.neg, if_pos rfl, if_neg hg0, if_pos hg]
  norm_num

theorem rsiCell_flat : data_processing.rsiCell (some (0 : ℚ)) (some 0) = .nan := by
  rfl

theorem rsi_val_bounds (g l : ℚ) (hg : 0 ≤ g) (hl : 0 < l) :
    0 ≤ 100 - 100 / (1 + g / l) ∧ 100 - 100 / (1 + g / l) ≤ 100 := by
  have h0 : (0 : ℚ) ≤ g / l := div_nonneg hg (le_of_lt hl)
  have h1 : (1 : ℚ) ≤ 1 + g / l := by linarith
  constructor
  · have hle : 100 / (1 + g / l) ≤ 100 := div_le_self (by norm_num) h1
    linarith
  · have hnn : (0 : ℚ) ≤ 100 / (1 + g / l) := by positivity
    linarith

theorem calculate_rsi_getElem? (xs : List ℚ) (i : Nat) (hi : i < xs.length) :
    (data_processing.calculate_rsi xs 14)[i]? =
      some (data_processing.rsiCell
        ((rollingMean 14 ((diff xs).map whereGain)).getD i none)
        ((rollingMean 14 ((diff xs).map whereLoss)).getD i none)) := by
  have hg : i < (rollingMean 14 ((diff xs).map whereGain)).length := by
    rw [rollingMean_length]
    simpa [diff_length] using hi
  have hl : i < (rollingMean 14 ((diff xs).map whereLoss)).length := by
    rw [rollingMean_length]
    simpa [diff_length] using hi
  simp only [data_processing.calculate_rsi]
  rw [List.getElem?_zipWith, getElem?_eq_some_getD _ _ hg, getElem?_eq_some_getD _ _ hl]
  rfl

/-- C6 (amended): within every ticker group, `RSI_14` is undefined (NaN) for
the first **13** rows — not 14: `delta.where(delta > 0, 0)` coerces the
NaN first delta to a gain and loss of 0, so the window-14 rolling means are
already defined at index 13 —; whenever it is a finite value it lies in
`[0, 100]`; at a defined row it equals exactly 100 when the trailing
average loss is 0 and the average gain positive; it is NaN (undefined) at a
row with history exactly when both averages are 0; and no infinity ever
appears in the output column. -/
theorem C6_rsi_policy (xs : List ℚ) (i : Nat) (hi : i < xs.length) :
    (i < 13 → (data_processing.calculate_rsi xs 14)[i]? = some PFloat.nan) ∧
    (data_processing.calculate_rsi xs 14)[i]? ≠ some PFloat.inf ∧
    (data_processing.calculate_rsi xs 14)[i]? ≠ some PFloat.ninf ∧
    (∀ q : ℚ, (data_processing.calculate_rsi xs 14)[i]? = some (PFloat.val q) →
      0 ≤ q ∧ q ≤ 100) ∧
    (13 ≤ i → ∃ g l : ℚ,
      (rollingMean 14 ((diff xs).map whereGain))[i]? = some (some g) ∧
      (rollingMean 14 ((diff xs).map whereLoss))[i]? = some (some l) ∧
      0 ≤ g ∧ 0 ≤ l ∧
      ((data_processing.calculate_rsi xs 14)[i]? = some PFloat.nan ↔ g = 0 ∧ l = 0) ∧
      (l = 0 → 0 < g → (data_processing.calculate_rsi xs 14)[i]? =
        some (PFloat.val 100))) := by
  have hglen : ((diff xs).map whereGain).length = xs.length := by simp [diff_length]
  have hllen : ((diff xs).map whereLoss).length = xs.length := by simp [diff_length]
  have hcell := calculate_rsi_getElem? xs i hi
  by_cases h13 : i < 13
  · have hgu : (rollingMean 14 ((diff xs).map whereGain))[i]? = some none :=
      rollingMean_getElem?_undef _ _ _ (by rw [hglen]; exact hi) (by omega)
    have hlu : (rollingMean 14 ((diff xs).map whereLoss))[i]? = some none :=
      rollingMean_getElem?_undef _ _ _ (by rw [hllen]; exact hi) (by omega)
    have hgd : (rollingMean 14 ((diff xs).map whereGain)).getD i none = none := by
      rw [List.getD_eq_getElem?_getD, hgu]
      rfl
    have hld : (rollingMean 14 ((diff xs).map whereLoss)).getD i none = none := by
      rw [List.getD_eq_getElem?_getD, hlu]
      rfl
    have hnan : (data_processing.calculate_rsi xs 14)[i]? = some PFloat.nan := by
      rw [hcell, hgd, hld, rsiCell_none_left]
    refine ⟨fun _ => hnan, by rw [hnan]; simp, by rw [hnan]; simp, ?_, fun h => absurd h (by omega)⟩
    intro q hq
    rw [hnan] at hq
    simp at hq
  · have h13le : 13 ≤ i := by omega
    have hw : 14 ≤ i + 1 := by omega
    have hgs : (rollingMean 14 ((diff xs).map whereGain))[i]? =
        some (some (listMean ((((diff xs).map whereGain).drop (i + 1 - 14)).take 14))) :=
      rollingMean_getElem?_defined _ _ _ (by rw [hglen]; exact hi) hw
    have hls : (rollingMean 14 ((diff xs).map whereLoss))[i]? =
        some (some (listMean ((((diff xs).map whereLoss).drop (i + 1 - 14)).take 14))) :=
      rollingMean_getElem?_defined _ _ _ (by rw [hllen]; exact hi) hw
    set g := listMean ((((diff xs).map whereGain).drop (i + 1 - 14)).take 14) with hgdef
    set l := listMean ((((diff xs).map whereLoss).drop (i + 1 - 14)).take 14) with hldef
    have hgnn : 0 ≤ g := gainWindow_nonneg xs _ _
    have hlnn : 0 ≤ l := lossWindow_nonneg xs _ _
    have hgd : (rollingMean 14 ((diff xs).map whereGain)).getD i none = some g := by
      rw [List.getD_eq_getElem?_getD, hgs]
      rfl
    have hld : (rollingMean 14 ((diff xs).map whereLoss)).getD i none = some l := by
      rw [List.getD_eq_getElem?_getD, hls]
      rfl
    have hval : (data_processing.calculate_rsi xs 14)[i]? =
        some (data_processing.rsiCell (some g) (some l)) := by
      rw [hcell, hgd, hld]
    rcases lt_or_eq_of_le hlnn with hlpos | hlzero
    · -- positive average loss: a finite RSI value in [0, 100]
      have hcv := rsiCell_val g l hgnn hlpos
      have hb := rsi_val_bounds g l hgnn hlpos
      refine ⟨fun h => absurd h (by omega), ?_, ?_, ?_, ?_⟩
      · rw [hval, hcv]; simp
      · rw [hval, hcv]; simp
      · intro q hq
        rw [hval, hcv] at hq
        simp at hq
        rw [← hq]
        exact hb
      · intro _
        refine ⟨g, l, hgs, hls, hgnn, hlnn, ?_, ?_⟩
        · rw [hval, hcv]
          constructor
          · intro h
            simp at h
          · rintro ⟨-, hl0⟩
            exact absurd hl0.symm (ne_of_lt hlpos)
        · intro hl0 _
          exact absurd hl0.symm (ne_of_lt hlpos)
    · -- zero average loss
      rcases lt_or_eq_of_le hgnn with hgpos | hgzero
      · have hcv := rsiCell_zero_loss g hgpos
        rw [hlzero] at hcv
        refine ⟨fun h => absurd h (by omega), ?_, ?_, ?_, ?_⟩
        · rw [hval, hcv]; simp
        · rw [hval, hcv]; simp
        · intro q hq
          rw [hval, hcv] at hq
          simp at hq
          rw [← hq]
          norm_num
        · intro _
          refine ⟨g, l, hgs, hls, hgnn, hlnn, ?_, fun _ _ => by rw [hval, hcv]⟩
          rw [hval, hcv]
          constructor
          · intro h
            simp at h
          · rintro ⟨hg0, -⟩
            exact absurd hg0.symm (ne_of_lt hgpos)
      · have hcv : data_processing.rsiCell (some g) (some l) = PFloat.nan := by
          rw [← hgzero, ← hlzero]
          exact rsiCell_flat
        refine ⟨fun h => absurd h (by omega), ?_, ?_, ?_, ?_⟩
        · rw [hval, hcv]; simp
        · rw [hval, hcv]; simp
        · intro q hq
          rw [hval, hcv] at hq
          simp at hq
        · intro _
          refine ⟨g, l, hgs, hls, hgnn, hlnn, ?_, ?_⟩
          · rw [hval, hcv]
            simp [← hgzero, ← hlzero]
          · intro _ hgpos
            exact absurd hgpos (by rw [← hgzero]; exact lt_irrefl 0)

/-- Counterexample to C6 as stated: on the strictly increasing close series
`[1..14]` the RSI is already **defined** at row 13 (the 14th row, still
within "the first 14 rows of the group") and equals 100 — the claim says
those rows are all undefined.  The cause: `delta.where(delta > 0, 0)` turns
the NaN first delta into a 0 gain/loss, so index 13 already has a full
window of 14 observations. -/
theorem C6_rsi_counterexample :
    13 < ([1, 2, 3, 4, 5, 6, 7, 8, 9, 10, 11, 12, 13, 14] : List ℚ).length ∧
    (data_processing.calculate_rsi
      [1, 2, 3, 4, 5, 6, 7, 8, 9, 10, 11, 12, 13, 14] 14)[13]? =
      some (PFloat.val 100) := by
  refine ⟨by norm_num, ?_⟩
  rw [calculate_rsi_getElem? _ 13 (by norm_num)]
  have hgd : (rollingMean 14
      ((diff [1, 2, 3, 4, 5, 6, 7, 8, 9, 10, 11, 12, 13, 14]).map whereGain)).getD 13 none =
      some (13 / 14) := by
    rw [List.getD_eq_getElem?_getD,
      rollingMean_getElem?_defined 14 _ 13 (by norm_num [diff_length]) (by norm_num)]
    norm_num [diff, whereGain, listMean]
  have hld : (rollingMean 14
      ((diff [1, 2, 3, 4, 5, 6, 7, 8, 9, 10, 11, 12, 13, 14]).map whereLoss)).getD 13 none =
      some 0 := by
    rw [List.getD_eq_getElem?_getD,
      rollingMean_getElem?_defined 14 _ 13 (by norm_num [diff_length]) (by norm_num)]
    norm_num [diff, whereLoss, listMean]
  rw [hgd, hld, rsiCell_zero_loss (13 / 14) (by norm_num)]

/-- Witness for C6 (amended) at the same series, row 5: RSI is NaN there
(inside the 13-row undefined prefix). -/
theorem C6_rsi_policy_witness :
    5 < ([1, 2, 3, 4, 5, 6, 7, 8, 9, 10, 11, 12, 13, 14] : List ℚ).length ∧
    (data_processing.calculate_rsi
      [1, 2, 3, 4, 5, 6, 7, 8, 9, 10, 11, 12, 13, 14] 14)[5]? = some PFloat.nan := by
  have h := C6_rsi_policy
    ([1, 2, 3, 4, 5, 6, 7, 8, 9, 10, 11, 12, 13, 14] : List ℚ) 5 (by norm_num)
  exact ⟨by norm_num, h.1 (by norm_num)⟩

/- ### C7 — the stochastic oscillator %K contract -/

theorem window_length (ys : List ℚ) (w i : Nat) (hw : w ≤ i + 1)
    (hi : i < ys.length) : ((ys.drop (i + 1 - w)).take w).length = w := by
  rw [List.length_take, List.length_drop]
  omega

theorem window_getElem_last (ys : List ℚ) (w i : Nat) (hw : w ≤ i + 1)
    (hw0 : 0 < w) (hi : i < ys.length) :
    ((ys.drop (i + 1 - w)).take w)[w - 1]? = some (ys.getD i 0) := by
  rw [List.getElem?_take, if_pos (by omega), List.getElem?_drop]
  have he : i + 1 - w + (w - 1) = i := by omega
  rw [he, getElem?_eq_some_getD _ _ hi]
  rfl

theorem getD_mem_window (ys : List ℚ) (w i : Nat) (hw : w ≤ i + 1)
    (hw0 : 0 < w) (hi : i < ys.length) :
    ys.getD i 0 ∈ (ys.drop (i + 1 - w)).take w := by
  have h := window_getElem_last ys w i hw hw0 hi
  exact List.getElem?_mem h

theorem foldl_min_le_init (l : List ℚ) (x : ℚ) : l.foldl min x ≤ x := by
  induction l generalizing x with
  | nil => simp
  | cons b t ih =>
    simp only [List.foldl_cons]
    exact le_trans (ih (min x b)) (min_le_left x b)

theorem init_le_foldl_max (l : List ℚ) (x : ℚ) : x ≤ l.foldl max x := by
  induction l generalizing x with
  | nil => simp
  | cons b t ih =>
    simp only [List.foldl_cons]
    exact le_trans (le_max_left x b) (ih (max x b))

theorem foldl_min_le (l : List ℚ) (x a : ℚ) (h : a = x ∨ a ∈ l) :
    l.foldl min x ≤ a := by
  induction l generalizing x with
  | nil =>
    rcases h with rfl | h
    · simp
    · simp at h
  | cons b t ih =>
    simp only [List.foldl_cons]
    rcases h with rfl | hmem
    · exact le_trans (foldl_min_le_init t (min a b)) (min_le_left a b)
    · rcases List.mem_cons.mp hmem with rfl | ht
      · exact le_trans (foldl_min_le_init t (min x a)) (min_le_right x a)
      · exact ih (min x b) (Or.inr ht)

theorem le_foldl_max (l : List ℚ) (x a : ℚ) (h : a = x ∨ a ∈ l) :
    a ≤ l.foldl max x := by
  induction l generalizing x with
  | nil =>
    rcases h with rfl | h
    · simp
    · simp at h
  | cons b t ih =>
    simp only [List.foldl_cons]
    rcases h with rfl | hmem
    · exact le_trans (le_max_left a b) (init_le_foldl_max t (max a b))
    · rcases List.mem_cons.mp hmem with rfl | ht
      · exact le_trans (le_max_right x a) (init_le_foldl_max t (max x a))
      · exact ih (max x b) (Or.inr ht)

theorem rollingMin_spec (w : Nat) (xs : List ℚ) (i : Nat)
    (hi : i < xs.length) (hw : w ≤ i + 1) (hw0 : 0 < w) :
    ∃ m : ℚ, (rollingMin w xs)[i]? = some (some m) ∧
      ∀ a ∈ (xs.drop (i + 1 - w)).take w, m ≤ a := by
  have hlen : ((xs.drop (i + 1 - w)).take w).length = w := window_length xs w i hw hi
  rw [rollingMin, rollingApply_getElem? _ _ _ _ hi, if_pos hw]
  cases hwin : (xs.drop (i + 1 - w)).take w with
  | nil =>
    rw [hwin] at hlen
    simp at hlen
    omega
  | cons x t =>
    refine ⟨listMin x t, rfl, ?_⟩
    intro a ha
    rcases List.mem_cons.mp ha with rfl | ht
    · exact foldl_min_le t a a (Or.inl rfl)
    · exact foldl_min_le t x a (Or.inr ht)

theorem rollingMax_spec (w : Nat) (xs : List ℚ) (i : Nat)
    (hi : i < xs.length) (hw : w ≤ i + 1) (hw0 : 0 < w) :
    ∃ m : ℚ, (rollingMax w xs)[i]? = some (some m) ∧
      ∀ a ∈ (xs.drop (i + 1 - w)).take w, a ≤ m := by
  have hlen : ((xs.drop (i + 1 - w)).take w).length = w := window_length xs w i hw hi
  rw [rollingMax, rollingApply_getElem? _ _ _ _ hi, if_pos hw]
  cases hwin : (xs.drop (i + 1 - w)).take w with
  | nil =>
    rw [hwin] at hlen
    simp at hlen
    omega
  | cons x t =>
    refine ⟨listMax x t, rfl, ?_⟩
    intro a ha
    rcases List.mem_cons.mp ha with rfl | ht
    · exact le_foldl_max t a a (Or.inl rfl)
    · exact le_foldl_max t x a (Or.inr ht)

theorem rollingApply_getElem?_undef (f : List ℚ → ℚ) (w : Nat) (xs : List ℚ)
    (i : Nat) (hi : i < xs.length) (hw : i + 1 < w) :
    (rollingApply f w xs)[i]? = some none := by
  rw [rollingApply_getElem? _ _ _ _ hi, if_neg (by omega)]

theorem kCell_none_right (c : ℚ) (x : Option ℚ) :
    data_processing.kCell c (x, none) = .nan := by
  cases x <;> rfl

theorem kCell_val (c hm lm : ℚ) (hne : lm < hm) :
    data_processing.kCell c (some hm, some lm) =
      .val (100 * (c - lm) / (hm - lm)) := by
  have h0 : hm - lm ≠ 0 := by intro h; apply absurd hne; simp [sub_eq_zero] at h; simp [h]
  simp only [data_processing.kCell, toPF, PFloat.sub, PFloat.neg, PFloat.add,
    PFloat.mul, PFloat.div]
  rw [if_neg (by rw [← sub_eq_add_neg]; exact h0)]
  norm_num [sub_eq_add_neg]

theorem kCell_flat (lm : ℚ) :
    data_processing.kCell lm (some lm, some lm) = .nan := by
  simp only [data_processing.kCell, toPF, PFloat.sub, PFloat.neg, PFloat.add,
    PFloat.mul, PFloat.div]
  norm_num

theorem stoch_k_getElem? (high low close : List ℚ)
    (hh : high.length = close.length) (hl : low.length = close.length)
    (i : Nat) (hi : i < close.length) :
    (data_processing.calculate_stochastic_oscillator high low close 14 3).1[i]? =
      some (data_processing.kCell (close.getD i 0)
        ((rollingMax 14 high).getD i none, (rollingMin 14 low).getD i none)) := by
  have hmx : i < (rollingMax 14 high).length := by
    rw [rollingMax, rollingApply_length, hh]
    exact hi
  have hmn : i < (rollingMin 14 low).length := by
    rw [rollingMin, rollingApply_length, hl]
    exact hi
  simp only [data_processing.calculate_stochastic_oscillator]
  rw [List.getElem?_zipWith, getElem?_eq_some_getD _ _ hi, List.zip_eq_zipWith,
    List.getElem?_zipWith, getElem?_eq_some_getD _ _ hmx, getElem?_eq_some_getD _ _ hmn]
  rfl

/-- C7: within every ticker group whose rows satisfy the OHLC sanity bound
`Low ≤ Close ≤ High`, the `%K` series of
`calculate_stochastic_oscillator` (window K = 14) is NaN for `i < 13`; for
`i ≥ 13` the window-14 rolling max of High and rolling min of Low exist,
and if they differ, `%K` is a finite value in `[0, 100]`, while if they are
equal (zero range) `%K` is NaN — an explicit undefined marker, never an
infinity from the division by zero. -/
theorem C7_stochastic_k (high low close : List ℚ)
    (hh : high.length = close.length) (hl : low.length = close.length)
    (hohlc : ∀ j, j < close.length →
      low.getD j 0 ≤ close.getD j 0 ∧ close.getD j 0 ≤ high.getD j 0)
    (i : Nat) (hi : i < close.length) :
    (i < 13 →
      (data_processing.calculate_stochastic_oscillator high low close 14 3).1[i]? =
        some PFloat.nan) ∧
    (data_processing.calculate_stochastic_oscillator high low close 14 3).1[i]? ≠
      some PFloat.inf ∧
    (data_processing.calculate_stochastic_oscillator high low close 14 3).1[i]? ≠
      some PFloat.ninf ∧
    (13 ≤ i → ∃ hm lm : ℚ,
      (rollingMax 14 high)[i]? = some (some hm) ∧
      (rollingMin 14 low)[i]? = some (some lm) ∧
      (hm ≠ lm → ∃ q : ℚ,
        (data_processing.calculate_stochastic_oscillator high low close 14 3).1[i]? =
          some (PFloat.val q) ∧ 0 ≤ q ∧ q ≤ 100) ∧
      (hm = lm →
        (data_processing.calculate_stochastic_oscillator high low close 14 3).1[i]? =
          some PFloat.nan)) := by
  have hcell := stoch_k_getElem? high low close hh hl i hi
  by_cases h13 : i < 13
  · have hmn : (rollingMin 14 low)[i]? = some none :=
      rollingApply_getElem?_undef _ _ _ _ (by rw [hl]; exact hi) (by omega)
    have hmd : (rollingMin 14 low).getD i none = none := by
      rw [List.getD_eq_getElem?_getD, hmn]
      rfl
    have hnan :
        (data_processing.calculate_stochastic_oscillator high low close 14 3).1[i]? =
          some PFloat.nan := by
      rw [hcell, hmd, kCell_none_right]
    exact ⟨fun _ => hnan, by rw [hnan]; simp, by rw [hnan]; simp,
      fun h => absurd h (by omega)⟩
  · have hw : 14 ≤ i + 1 := by omega
    obtain ⟨hm, hhm, hhmax⟩ :=
      rollingMax_spec 14 high i (by rw [hh]; exact hi) hw (by norm_num)
    obtain ⟨lm, hlm, hlmin⟩ :=
      rollingMin_spec 14 low i (by rw [hl]; exact hi) hw (by norm_num)
    have hmd : (rollingMax 14 high).getD i none = some hm := by
      rw [List.getD_eq_getElem?_getD, hhm]
      rfl
    have hld : (rollingMin 14 low).getD i none = some lm := by
      rw [List.getD_eq_getElem?_getD, hlm]
      rfl
    have hkc :
        (data_processing.calculate_stochastic_oscillator high low close 14 3).1[i]? =
          some (data_processing.kCell (close.getD i 0) (some hm, some lm)) := by
      rw [hcell, hmd, hld]
    have hch : close.getD i 0 ≤ high.getD i 0 := (hohlc i hi).2
    have hcl : low.getD i 0 ≤ close.getD i 0 := (hohlc i hi).1
    have hlmc : lm ≤ close.getD i 0 :=
      le_trans (hlmin _ (getD_mem_window low 14 i hw (by norm_num) (by rw [hl]; exact hi))) hcl
    have hcmh : close.getD i 0 ≤ hm :=
      le_trans hch (hhmax _ (getD_mem_window high 14 i hw (by norm_num) (by rw [hh]; exact hi)))
    have hlmhm : lm ≤ hm := le_trans hlmc hcmh
    by_cases hflat : hm = lm
    · have hceq : close.getD i 0 = lm := le_antisymm (hflat ▸ hcmh) hlmc
      have hknan :
          (data_processing.calculate_stochastic_oscillator high low close 14 3).1[i]? =
            some PFloat.nan := by
        rw [hkc, hceq, hflat, kCell_flat]
      refine ⟨fun h => absurd h (by omega), by rw [hknan]; simp, by rw [hknan]; simp, ?_⟩
      intro _
      exact ⟨hm, lm, hhm, hlm, fun hne => absurd hflat hne, fun _ => hknan⟩
    · have hlt : lm < hm := lt_of_le_of_ne hlmhm (fun h => hflat h.symm)
      have hkv :
          (data_processing.calculate_stochastic_oscillator high low close 14 3).1[i]? =
            some (PFloat.val (100 * (close.getD i 0 - lm) / (hm - lm))) := by
        rw [hkc, kCell_val _ _ _ hlt]
      have hq0 : (0 : ℚ) ≤ 100 * (close.getD i 0 - lm) / (hm - lm) := by
        apply div_nonneg
        · nlinarith [hlmc]
        · linarith
      have hq100 : 100 * (close.getD i 0 - lm) / (hm - lm) ≤ 100 := by
        rw [div_le_iff₀ (by linarith)]
        nlinarith [hcmh, hlmc]
      refine ⟨fun h => absurd h (by omega), by rw [hkv]; simp, by rw [hkv]; simp, ?_⟩
      intro _
      exact ⟨hm, lm, hhm, hlm,
        fun _ => ⟨_, hkv, hq0, hq100⟩, fun h => absurd h hflat⟩

/-- Witness for C7 at a 14-row group with High = Low = Close = `[1..14]`
(each row trivially satisfies Low ≤ Close ≤ High), index 13. -/
theorem C7_stochastic_k_witness :
    ∃ hm lm : ℚ,
      (rollingMax 14 [1, 2, 3, 4, 5, 6, 7, 8, 9, 10, 11, 12, 13, 14])[13]? =
        some (some hm) ∧
      (rollingMin 14 [1, 2, 3, 4, 5, 6, 7, 8, 9, 10, 11, 12, 13, 14])[13]? =
        some (some lm) ∧
      (hm ≠ lm → ∃ q : ℚ,
        (data_processing.calculate_stochastic_oscillator
          [1, 2, 3, 4, 5, 6, 7, 8, 9, 10, 11, 12, 13, 14]
          [1, 2, 3, 4, 5, 6, 7, 8, 9, 10, 11, 12, 13, 14]
          [1, 2, 3, 4, 5, 6, 7, 8, 9, 10, 11, 12, 13, 14] 14 3).1[13]? =
          some (PFloat.val q) ∧ 0 ≤ q ∧ q ≤ 100) ∧
      (hm = lm →
        (data_processing.calculate_stochastic_oscillator
          [1, 2, 3, 4, 5, 6, 7, 8, 9, 10, 11, 12, 13, 14]
          [1, 2, 3, 4, 5, 6, 7, 8, 9, 10, 11, 12, 13, 14]
          [1, 2, 3, 4, 5, 6, 7, 8, 9, 10, 11, 12, 13, 14] 14 3).1[13]? =
          some PFloat.nan) :=
  (C7_stochastic_k
    ([1, 2, 3, 4, 5, 6, 7, 8, 9, 10, 11, 12, 13, 14] : List ℚ)
    [1, 2, 3, 4, 5, 6, 7, 8, 9, 10, 11, 12, 13, 14]
    [1, 2, 3, 4, 5, 6, 7, 8, 9, 10, 11, 12, 13, 14] rfl rfl
    (fun _ _ => ⟨le_rfl, le_rfl⟩) 13 (by norm_num)).2.2.2 (by norm_num)

/- ### C8 — the Bollinger-band columns -/

theorem sampleVar_nonneg (l : List ℚ) (h2 : 2 ≤ l.length) : 0 ≤ sampleVar l := by
  apply div_nonneg
  · apply List.sum_nonneg
    intro x hx
    obtain ⟨y, _, rfl⟩ := List.mem_map.mp hx
    positivity
  · have hc : (2 : ℚ) ≤ (l.length : ℚ) := by exact_mod_cast h2
    linarith

theorem rollingStd_length (w : Nat) (xs : List ℚ) :
    (rollingStd w xs).length = xs.length := by
  rw [rollingStd, List.length_map, rollingApply_length]

theorem rollingStd_getElem?_defined (w : Nat) (xs : List ℚ) (i : Nat)
    (hi : i < xs.length) (hw : w ≤ i + 1) :
    (rollingStd w xs)[i]? =
      some (some (Real.sqrt ((sampleVar ((xs.drop (i + 1 - w)).take w) : ℚ) : ℝ))) := by
  rw [rollingStd, List.getElem?_map, rollingApply_getElem? _ _ _ _ hi, if_pos hw]
  rfl

theorem rollingStd_getElem?_undef (w : Nat) (xs : List ℚ) (i : Nat)
    (hi : i < xs.length) (hw : i + 1 < w) :
    (rollingStd w xs)[i]? = some none := by
  rw [rollingStd, List.getElem?_map, rollingApply_getElem? _ _ _ _ hi,
    if_neg (by omega)]
  rfl

/-- C8: per ticker group, `BB_Middle` is the very `SMA_10` series (the code
copies the column: both are `rollingMean 10` of the group's closes), and at
every row with a full window there is **one** standard-deviation value `s`
— the window-10 sample (`ddof=1`) standard deviation, i.e. `s ≥ 0` with
`s² = sampleVar` of exactly the window `Close[i-9..i]` that `SMA_10` uses —
with `BB_Upper = BB_Middle + 2·s` and `BB_Lower = BB_Middle − 2·s`; on the
9-row prefix all three columns are undefined together. -/
theorem C8_bollinger (xs : List ℚ) (i : Nat) (hi : i < xs.length) :
    (i < 9 →
      (rollingMean 10 xs)[i]? = some none ∧
      (bbUpperCol (rollingMean 10 xs) (rollingStd 10 xs))[i]? = some none ∧
      (bbLowerCol (rollingMean 10 xs) (rollingStd 10 xs))[i]? = some none) ∧
    (9 ≤ i → ∃ (m : ℚ) (s : ℝ),
      (rollingMean 10 xs)[i]? = some (some m) ∧
      m = listMean ((xs.drop (i - 9)).take 10) ∧
      0 ≤ s ∧
      s ^ 2 = ((sampleVar ((xs.drop (i - 9)).take 10) : ℚ) : ℝ) ∧
      (bbUpperCol (rollingMean 10 xs) (rollingStd 10 xs))[i]? =
        some (some ((m : ℝ) + 2 * s)) ∧
      (bbLowerCol (rollingMean 10 xs) (rollingStd 10 xs))[i]? =
        some (some ((m : ℝ) - 2 * s))) := by
  constructor
  · intro h9
    have hmu : (rollingMean 10 xs)[i]? = some none :=
      rollingMean_getElem?_undef _ _ _ hi (by omega)
    have hsu : (rollingStd 10 xs)[i]? = some none :=
      rollingStd_getElem?_undef _ _ _ hi (by omega)
    refine ⟨hmu, ?_, ?_⟩
    · rw [bbUpperCol, List.getElem?_zipWith, hmu, hsu]
    · rw [bbLowerCol, List.getElem?_zipWith, hmu, hsu]
  · intro h9
    have hw : 10 ≤ i + 1 := by omega
    have he : i + 1 - 10 = i - 9 := by omega
    have hms : (rollingMean 10 xs)[i]? =
        some (some (listMean ((xs.drop (i - 9)).take 10))) := by
      rw [rollingMean_getElem?_defined _ _ _ hi hw, he]
    have hss : (rollingStd 10 xs)[i]? =
        some (some (Real.sqrt ((sampleVar ((xs.drop (i - 9)).take 10) : ℚ) : ℝ))) := by
      rw [rollingStd_getElem?_defined _ _ _ hi hw, he]
    have hwl : ((xs.drop (i - 9)).take 10).length = 10 := by
      rw [← he]
      exact window_length xs 10 i hw hi
    have hvnn : (0 : ℚ) ≤ sampleVar ((xs.drop (i - 9)).take 10) :=
      sampleVar_nonneg _ (by rw [hwl]; norm_num)
    refine ⟨listMean ((xs.drop (i - 9)).take 10),
      Real.sqrt ((sampleVar ((xs.drop (i - 9)).take 10) : ℚ) : ℝ),
      hms, rfl, Real.sqrt_nonneg _, ?_, ?_, ?_⟩
    · exact Real.sq_sqrt (by exact_mod_cast hvnn)
    · rw [bbUpperCol, List.getElem?_zipWith, hms, hss]
    · rw [bbLowerCol, List.getElem?_zipWith, hms, hss]

/-- Witness for C8 at the flat ten-close group `[5,...,5]`, index 9:
mean 5, variance 0, both bands collapse onto the middle. -/
theorem C8_bollinger_witness :
    9 < ([5, 5, 5, 5, 5, 5, 5, 5, 5, 5] : List ℚ).length ∧
    (∃ (m : ℚ) (s : ℝ),
      (rollingMean 10 [5, 5, 5, 5, 5, 5, 5, 5, 5, 5])[9]? = some (some m) ∧
      m = listMean ((([5, 5, 5, 5, 5, 5, 5, 5, 5, 5] : List ℚ).drop (9 - 9)).take 10) ∧
      0 ≤ s ∧
      s ^ 2 = ((sampleVar ((([5, 5, 5, 5, 5, 5, 5, 5, 5, 5] : List ℚ).drop (9 - 9)).take 10) : ℚ) : ℝ) ∧
      (bbUpperCol (rollingMean 10 [5, 5, 5, 5, 5, 5, 5, 5, 5, 5])
        (rollingStd 10 [5, 5, 5, 5, 5, 5, 5, 5, 5, 5]))[9]? =
        some (some ((m : ℝ) + 2 * s)) ∧
      (bbLowerCol (rollingMean 10 [5, 5, 5, 5, 5, 5, 5, 5, 5, 5])
        (rollingStd 10 [5, 5, 5, 5, 5, 5, 5, 5, 5, 5]))[9]? =
        some (some ((m : ℝ) - 2 * s))) :=
  ⟨by norm_num,
    (C8_bollinger ([5, 5, 5, 5, 5, 5, 5, 5, 5, 5] : List ℚ) 9 (by norm_num)).2
      (by norm_num)⟩

/- ### C1 / C2 — the zip-unpacking feature re-assembly -/

/-- C1 (code bug): the assembly of the per-group MACD/Signal (and %K/%D)
series is positional, not keyed by (ticker, date):
`df['MACD'], df['Signal_Line'] = zip(*df.groupby('Ticker')['Close'].apply(...))`
unpacks one tuple entry per ticker group and hands pandas a length-1
list-like for a 2-row column, which raises `ValueError` (the `none`
branch).  On this two-row one-ticker panel the assembler therefore aligns
nothing at all — no output row receives its group's MACD at its own date. -/
theorem C1_zip_assembly_not_keyed :
    ((macdPairs (sortPanel
      [⟨"AAA", 20240101, 1, 2, 1, 2, 100⟩,
        ⟨"AAA", 20240102, 2, 3, 2, 3, 100⟩])).map Prod.fst).length = 1 ∧
    (sortPanel
      [⟨"AAA", 20240101, 1, 2, 1, 2, 100⟩,
        ⟨"AAA", 20240102, 2, 3, 2, 3, 100⟩]).length = 2 ∧
    preprocess_data
      [⟨"AAA", 20240101, 1, 2, 1, 2, 100⟩,
        ⟨"AAA", 20240102, 2, 3, 2, 3, 100⟩] = none :=
  ⟨by decide, by decide, by rfl⟩

/-- C2 (code bug): `preprocess_data` cannot preserve the row count, the
(Ticker, Date) ordering or the key multiset on every panel, because on any
panel where some ticker has more than one row the MACD tuple assignment
raises before any table is returned.  Concretely: a well-formed three-row
panel (tickers AAA, AAA, BBB; distinct (ticker, date) keys) yields no
output at all. -/
theorem C2_preprocess_loses_panel :
    (sortPanel
      [⟨"AAA", 20240102, 2, 3, 2, 3, 100⟩, ⟨"BBB", 20240101, 1, 2, 1, 2, 50⟩,
        ⟨"AAA", 20240101, 1, 2, 1, 2, 100⟩]).length = 3 ∧
    (tickersOf (sortPanel
      [⟨"AAA", 20240102, 2, 3, 2, 3, 100⟩, ⟨"BBB", 20240101, 1, 2, 1, 2, 50⟩,
        ⟨"AAA", 20240101, 1, 2, 1, 2, 100⟩])).length = 2 ∧
    preprocess_data
      [⟨"AAA", 20240102, 2, 3, 2, 3, 100⟩, ⟨"BBB", 20240101, 1, 2, 1, 2, 50⟩,
        ⟨"AAA", 20240101, 1, 2, 1, 2, 100⟩] = none :=
  ⟨by decide, by decide, by rfl⟩

/- ### C9 — schema errors on loading -/

theorem loadLoop_cons (g : CSVFile) (rest : List CSVFile) (acc : List CRow) :
    data_cleaning.loadLoop (g :: rest) acc =
      if (required_columns.filter fun c => !(clean_column_names g.cols).contains c).isEmpty
      then data_cleaning.loadLoop rest (acc ++ g.rows)
      else .error "Missing columns in file." := rfl

theorem load_data_cleaning_eq (files : List CSVFile) :
    data_cleaning.load_data files =
      if files.isEmpty then .error "No CSV files found in the directory."
      else data_cleaning.loadLoop files [] := rfl

theorem load_data_processing_eq (files : List CSVFile) :
    data_processing.load_data files =
      if (files.filter data_processing.validFile).isEmpty
      then .error "No valid CSV files found in the directory."
      else .ok ((files.filter data_processing.validFile).flatMap CSVFile.rows) := rfl

theorem loadLoop_error (files : List CSVFile) (acc : List CRow) (f : CSVFile)
    (hf : f ∈ files)
    (hmiss : (required_columns.filter
      fun c => !(clean_column_names f.cols).contains c) ≠ []) :
    ∃ e, data_cleaning.loadLoop files acc = .error e := by
  induction files generalizing acc with
  | nil => simp at hf
  | cons g rest ih =>
    rcases List.mem_cons.mp hf with rfl | hmem
    · have hie : (required_columns.filter
          fun c => !(clean_column_names f.cols).contains c).isEmpty = false := by
        cases hc : (required_columns.filter
            fun c => !(clean_column_names f.cols).contains c) with
        | nil => exact absurd hc hmiss
        | cons a l => rfl
      refine ⟨"Missing columns in file.", ?_⟩
      rw [loadLoop_cons, if_neg (by rw [hie]; exact Bool.false_ne_true)]
    · cases hg : (required_columns.filter
          fun c => !(clean_column_names g.cols).contains c).isEmpty with
      | true =>
        rw [loadLoop_cons, if_pos (by rw [hg])]
        exact ih (acc ++ g.rows) hmem
      | false =>
        exact ⟨"Missing columns in file.", by rw [loadLoop_cons, if_neg (by rw [hg]; exact Bool.false_ne_true)]⟩

/-- Counterexample to C9 as stated: `data_processing.load_data` does **not**
abort when an input file lacks a required column — it skips the file with a
warning and produces a combined table from the remaining inputs.  Here the
second file has no `Close` column, yet loading returns the first file's
rows. -/
theorem C9_counterexample :
    "Close" ∈ required_columns ∧
    ("Close" ∈ (["Ticker", "DTYYYYMMDD", "Open", "High", "Low", "Volume"] :
      List String) → False) ∧
    data_processing.load_data
      [⟨["Ticker", "DTYYYYMMDD", "Open", "High", "Low", "Close", "Volume"],
          [⟨some "AAA", some 20240101, some 1, some 2, some 1, some 2, some 100, []⟩]⟩,
        ⟨["Ticker", "DTYYYYMMDD", "Open", "High", "Low", "Volume"],
          [⟨some "BBB", some 20240101, some 1, some 2, some 1, some 2, some 100, []⟩]⟩] =
      Except.ok [⟨some "AAA", some 20240101, some 1, some 2, some 1, some 2, some 100, []⟩] :=
  ⟨by decide, by decide, by rfl⟩

/-- C9 (amended): the two loaders diverge.  `data_cleaning.load_data`
aborts with an error on an empty directory and whenever any file, after
column-name cleaning, lacks a required column.  `data_processing.load_data`
instead skips invalid files (missing required columns or empty) and aborts
only when no valid file remains; when at least one valid file remains it
returns the concatenation of the valid files' rows. -/
theorem C9_fatal_schema_amended (files : List CSVFile) :
    (files = [] → ∃ e, data_cleaning.load_data files = .error e) ∧
    (∀ f ∈ files,
      (required_columns.filter fun c => !(clean_column_names f.cols).contains c) ≠ [] →
      ∃ e, data_cleaning.load_data files = .error e) ∧
    (files.filter data_processing.validFile = [] →
      ∃ e, data_processing.load_data files = .error e) ∧
    (files.filter data_processing.validFile ≠ [] →
      data_processing.load_data files =
        .ok ((files.filter data_processing.validFile).flatMap CSVFile.rows)) := by
  refine ⟨?_, ?_, ?_, ?_⟩
  · rintro rfl
    exact ⟨"No CSV files found in the directory.", rfl⟩
  · intro f hf hmiss
    have hne : files.isEmpty = false := by
      cases files with
      | nil => simp at hf
      | cons a l => rfl
    rw [load_data_cleaning_eq, if_neg (by rw [hne]; exact Bool.false_ne_true)]
    exact loadLoop_error files [] f hf hmiss
  · intro hnone
    refine ⟨"No valid CSV files found in the directory.", ?_⟩
    rw [load_data_processing_eq, hnone]
    rfl
  · intro hsome
    have hie : (files.filter data_processing.validFile).isEmpty = false := by
      cases hc : files.filter data_processing.validFile with
      | nil => exact absurd hc hsome
      | cons a l => rfl
    rw [load_data_processing_eq, if_neg (by rw [hie]; exact Bool.false_ne_true)]

/-- Witness for C9 (amended): a file whose header lacks `Close` makes
`data_cleaning.load_data` abort, and a lone valid file loads into exactly
its own rows under `data_processing.load_data`. -/
theorem C9_fatal_schema_amended_witness :
    (∃ e, data_cleaning.load_data
      [⟨["Ticker", "DTYYYYMMDD", "Open", "High", "Low", "Volume"],
        [⟨some "BBB", some 20240101, some 1, some 2, some 1, some 2, some 100, []⟩]⟩] =
      .error e) ∧
    data_processing.load_data
      [⟨["Ticker", "DTYYYYMMDD", "Open", "High", "Low", "Close", "Volume"],
        [⟨some "AAA", some 20240101, some 1, some 2, some 1, some 2, some 100, []⟩]⟩] =
      .ok (([(⟨["Ticker", "DTYYYYMMDD", "Open", "High", "Low", "Close", "Volume"],
        [⟨some "AAA", some 20240101, some 1, some 2, some 1, some 2, some 100, []⟩]⟩ :
          CSVFile)].filter data_processing.validFile).flatMap CSVFile.rows) := by
  constructor
  · exact (C9_fatal_schema_amended
      [⟨["Ticker", "DTYYYYMMDD", "Open", "High", "Low", "Volume"],
        [⟨some "BBB", some 20240101, some 1, some 2, some 1, some 2, some 100, []⟩]⟩]).2.1
      ⟨["Ticker", "DTYYYYMMDD", "Open", "High", "Low", "Volume"],
        [⟨some "BBB", some 20240101, some 1, some 2, some 1, some 2, some 100, []⟩]⟩
      (by simp) (by decide)
  · exact (C9_fatal_schema_amended
      [⟨["Ticker", "DTYYYYMMDD", "Open", "High", "Low", "Close", "Volume"],
        [⟨some "AAA", some 20240101, some 1, some 2, some 1, some 2, some 100, []⟩]⟩]).2.2.2
      (by decide)

/- ### C10 — clean_data only removes whole rows -/

theorem dropDupAux_sublist {α : Type} [DecidableEq α] (l seen : List α) :
    (dropDupAux seen l).Sublist l := by
  induction l generalizing seen with
  | nil => simp [dropDupAux]
  | cons a t ih =>
    simp only [dropDupAux]
    split
    · exact (ih seen).cons a
    · exact (ih (a :: seen)).cons₂ a

theorem drop_duplicates_sublist {α : Type} [DecidableEq α] (l : List α) :
    (drop_duplicates l).Sublist l := dropDupAux_sublist l []

theorem fillColumn_id (get : CRow → Option ℚ) (set : CRow → ℚ → CRow)
    (df : List CRow) (h : ∀ r ∈ df, (get r).isSome) :
    data_cleaning.fillColumn get set df = df := by
  have hf : (df.filter fun r => (get r).isNone) = [] := by
    rw [List.filter_eq_nil_iff]
    intro r hr
    have hs := h r hr
    cases hgr : get r with
    | none => rw [hgr] at hs; simp at hs
    | some q => simp [hgr]
  simp [data_cleaning.fillColumn, hf]

theorem dropna_no_null (df : List CRow) (r : CRow)
    (hr : r ∈ data_cleaning.dropnaCritical df) :
    r.Open.isSome ∧ r.High.isSome ∧ r.Low.isSome ∧ r.Close.isSome ∧
      r.Volume.isSome := by
  have hmem := (List.mem_filter.mp hr).2
  have hfalse : data_cleaning.hasNullCritical r = false := by
    cases h : data_cleaning.hasNullCritical r
    · rfl
    · rw [h] at hmem
      simp at hmem
  unfold data_cleaning.hasNullCritical at hfalse
  refine ⟨?_, ?_, ?_, ?_, ?_⟩
  · cases h : r.Open
    · rw [h] at hfalse
      simp at hfalse
    · rfl
  · cases h : r.High
    · rw [h] at hfalse
      simp at hfalse
    · rfl
  · cases h : r.Low
    · rw [h] at hfalse
      simp at hfalse
    · rfl
  · cases h : r.Close
    · rw [h] at hfalse
      simp at hfalse
    · rfl
  · cases h : r.Volume
    · rw [h] at hfalse
      simp at hfalse
    · rfl

theorem fillNumerical_id (df : List CRow)
    (h : ∀ r ∈ df, r.Open.isSome ∧ r.High.isSome ∧ r.Low.isSome ∧
      r.Close.isSome ∧ r.Volume.isSome) :
    data_cleaning.fillNumerical df = df := by
  simp only [data_cleaning.fillNumerical]
  rw [fillColumn_id CRow.Open _ df (fun r hr => (h r hr).1),
    fillColumn_id CRow.High _ df (fun r hr => (h r hr).2.1),
    fillColumn_id CRow.Low _ df (fun r hr => (h r hr).2.2.1),
    fillColumn_id CRow.Close _ df (fun r hr => (h r hr).2.2.2.1),
    fillColumn_id CRow.Volume _ df (fun r hr => (h r hr).2.2.2.2)]

/-- C10: `clean_data` only ever removes whole rows and never edits a
surviving cell: the rows with a null critical cell are dropped first, so
the mean-fill loop finds no nulls and is the identity, and the result is a
sublist of the input — every output row is an input row verbatim. -/
theorem C10_clean_data_rows_verbatim (df : List CRow) :
    data_cleaning.clean_data df =
      drop_duplicates (data_cleaning.dropnaCritical df) ∧
    (data_cleaning.clean_data df).Sublist df := by
  have hfill : data_cleaning.fillNumerical (data_cleaning.dropnaCritical df) =
      data_cleaning.dropnaCritical df :=
    fillNumerical_id _ (fun r hr => dropna_no_null df r hr)
  constructor
  · show drop_duplicates (data_cleaning.fillNumerical (data_cleaning.dropnaCritical df)) = _
    rw [hfill]
  · show (drop_duplicates
      (data_cleaning.fillNumerical (data_cleaning.dropnaCritical df))).Sublist df
    rw [hfill]
    exact (drop_duplicates_sublist _).trans (List.filter_sublist _)

end StockMarket
